import Mathlib

set_option maxHeartbeats 1000000

/- Shallow embedding of src/classproxy.hpp (the Detouring::ClassProxy template
   and its member-resolution helpers), modelling the MSVC x86-64 build
   configuration: pointers are natural numbers (0 is the null pointer),
   machine words are 64 bits, pointer slots are 8 bytes wide.  The mutable
   word memory of the process (dispatch tables live there) is threaded
   explicitly as a function from addresses to word values; instruction bytes
   are immutable and live in the environment.  The per-type-pair static data
   members of ClassProxy form the Registry structure. -/

namespace Detouring

/-- Machine addresses and word values; 0 plays the role of nullptr. -/
abbrev Addr := Nat

/-- Mutable pointer-slot memory: the word stored at each address. -/
abbrev Mem := Nat → Nat

/-- Pointer width of the modelled x86-64 configuration. -/
def ptrSize : Nat := 8

/-- Largest value of the 64-bit size type; the not-found sentinel index. -/
def SIZE_MAX : Nat := 2 ^ 64 - 1

/-- Write one word of memory. -/
def memWrite (mem : Mem) (a : Nat) (v : Nat) : Mem :=
  fun x => if x = a then v else mem x

/-- Immutable environment: the process code bytes, and the external
collaborators declared but not defined in classproxy.hpp.  The fields isExec,
createOK, enableOK and trampOf are modelled from the spec: they are the
executability probe (IsExecutableAddress) and the trampoline collaborator
contract (Create and Enable succeed or fail, GetTrampoline yields an
address or null).  maxCap bounds the snapshot walk (vector max_size). -/
structure Env where
  code : Nat → Nat
  isExec : Nat → Bool
  createOK : Nat → Nat → Bool
  enableOK : Nat → Nat → Bool
  trampOf : Nat → Nat → Nat
  maxCap : Nat

/-- Instruction byte at an address (bytes are 8 bits wide). -/
def byteAt (env : Env) (a : Nat) : Nat :=
  env.code a % 256

/-- Little-endian unsigned 32-bit read from the code bytes. -/
def u32At (env : Env) (a : Nat) : Nat :=
  byteAt env a + 256 * byteAt env (a + 1) + 256 ^ 2 * byteAt env (a + 2) +
    256 ^ 3 * byteAt env (a + 3)

/-- Little-endian signed 32-bit read from the code bytes. -/
def i32At (env : Env) (a : Nat) : Int :=
  if u32At env a < 2 ^ 31 then (u32At env a : Int) else (u32At env a : Int) - 2 ^ 32

/-- An opaque bound-method reference.  Under the modelled MSVC configuration a
pointer to member function is its code pointer, held in ptr; a null member
pointer has ptr equal to 0. -/
structure MethodRef where
  ptr : Nat
deriving DecidableEq

/-- Detouring::Member: a resolved descriptor, raw code address plus slot
index.  The default constructor is modelled from the spec: Member is declared
in classproxy.hpp but its constructors are defined elsewhere in the
repository; the spec fixes the default as the not-found sentinel (null
address, index at least every table size), realised by SIZE_MAX. -/
structure Member where
  address : Nat
  index : Nat
deriving DecidableEq

/-- Detouring::Member default constructor: the not-found sentinel. -/
def Member.sentinel : Member :=
  { address := 0, index := SIZE_MAX }

/-- Modelled from the spec: the external trampoline collaborator handle
(Detouring::Hook from hook.hpp, which is not part of the given source).  It
records the installation target and detour, whether Create and Enable have
succeeded, and the trampoline entry point handed out by the collaborator. -/
structure Hook where
  target : Nat := 0
  detour : Nat := 0
  created : Bool := false
  enabled : Bool := false
  trampoline : Nat := 0
deriving DecidableEq

/-- Modelled from the spec: Hook.Create asks the collaborator to install a
trampoline from target to detour; on success the handle becomes created and
obtains its trampoline address, on failure the handle is unchanged. -/
def Hook.Create (env : Env) (h : Hook) (target detour : Nat) : Bool × Hook :=
  if env.createOK target detour then
    (true, { h with target := target, detour := detour, created := true,
                    trampoline := env.trampOf target detour })
  else
    (false, h)

/-- Modelled from the spec: Hook.Enable activates a created hook. -/
def Hook.Enable (env : Env) (h : Hook) : Bool × Hook :=
  if env.enableOK h.target h.detour then (true, { h with enabled := true }) else (false, h)

/-- Modelled from the spec: Hook.GetTrampoline returns the trampoline entry
point or null. -/
def Hook.GetTrampoline (h : Hook) : Nat :=
  h.trampoline

/-- Association-list model of std::unordered_map lookup (find). -/
def alistLookup {α : Type} : List (Nat × α) → Nat → Option α
  | [], _ => none
  | (k, v) :: rest, key => if k = key then some v else alistLookup rest key

/-- Association-list model of std::unordered_map insertion or update. -/
def alistInsert {α : Type} : List (Nat × α) → Nat → α → List (Nat × α)
  | [], key, v => [(key, v)]
  | (k, w) :: rest, key, v =>
    if k = key then (key, v) :: rest else (k, w) :: alistInsert rest key v

/-- Association-list model of std::unordered_map erase. -/
def alistErase {α : Type} : List (Nat × α) → Nat → List (Nat × α)
  | [], _ => []
  | (k, w) :: rest, key => if k = key then rest else (k, w) :: alistErase rest key

/-- Detouring::CacheMap, mapping extracted addresses to resolved Members. -/
abbrev CacheMap := List (Nat × Member)

/-- Detouring::HookMap, mapping raw addresses to trampoline-hook handles. -/
abbrev HookMap := List (Nat × Hook)

/-- Detouring::GetVirtualTable: read the first machine word of an instance
and reinterpret it as the dispatch-table pointer. -/
def GetVirtualTable (mem : Mem) (instance_ : Nat) : Nat :=
  mem instance_

/-- Read dispatch-table slot number i of the table at address vt. -/
def slotRead (mem : Mem) (vt : Nat) (i : Nat) : Nat :=
  mem (vt + ptrSize * i)

/-- Detouring::GetAddress: extract the raw code address designated by a
bound-method reference, unwrapping (once) the 0xE9 relative-jump thunk that
non-optimized builds emit; the 5-byte displacement arithmetic wraps at the
64-bit pointer width. -/
def GetAddress (env : Env) (method : MethodRef) : Nat :=
  if byteAt env method.ptr = 0xE9 then
    (((method.ptr : Int) + 5 + i32At env (method.ptr + 1)) % ((2 : Int) ^ 64)).toNat
  else
    method.ptr

/-- Detouring::GetVirtualAddress (MSVC x86-64 branch): classify a method
reference against a dispatch table.  After skipping the mov rax, [rcx]
prologue byte 0x48, a jmp [rax + offset] pattern (opcode 0xFF with a mod/reg
field of 2) yields an encoded byte offset (8-bit or 32-bit according to the
mod bits) which is divided by the slot width; otherwise the extracted address
is looked for by a linear scan of the table.  A null table, zero size, null
reference or failed match produces the sentinel Member. -/
def GetVirtualAddress (env : Env) (mem : Mem) (vtable : Nat) (size : Nat)
    (method : MethodRef) : Member :=
  if vtable = 0 ∨ size = 0 ∨ method.ptr = 0 then
    Member.sentinel
  else
    let member := GetAddress env method
    let addr := if byteAt env member = 0x48 then member + 3 else member
    if byteAt env addr = 0xFF ∧ (byteAt env (addr + 1) >>> 4) &&& 3 = 2 then
      let jumptype := byteAt env (addr + 1) >>> 6
      let offset : Nat :=
        if jumptype = 1 then byteAt env (addr + 2)
        else if jumptype = 2 then u32At env (addr + 2)
        else 0
      let index := offset / ptrSize
      if size ≤ index then Member.sentinel
      else { address := slotRead mem vtable index, index := index }
    else
      match (List.range size).find? (fun i => slotRead mem vtable i = member) with
      | some i => { address := member, index := i }
      | none => Member.sentinel

/-- ClassProxy::GetVirtualAddressInternal: the memoizing resolver.  The cache
key is the extracted address; a cache hit is returned as is, a miss is
resolved against the table and cached only when the resolution succeeded
(index strictly below the table size). -/
def GetVirtualAddressInternal (env : Env) (mem : Mem) (cache : CacheMap)
    (vtable : Nat) (size : Nat) (method : MethodRef) : Member × CacheMap :=
  let member := GetAddress env method
  match alistLookup cache member with
  | some m => (m, cache)
  | none =>
    let address := GetVirtualAddress env mem vtable size method
    if address.index < size then (address, alistInsert cache member address)
    else (address, cache)

/-- The per-(Target, Substitute) static data members of ClassProxy. -/
structure Registry where
  target_size : Nat := 0
  target_vtable : Nat := 0
  target_cache : CacheMap := []
  original_vtable : List Nat := []
  substitute_size : Nat := 0
  substitute_vtable : Nat := 0
  substitute_cache : CacheMap := []
  hooks : HookMap := []
deriving DecidableEq

/-- ClassProxy::GetTargetVirtualAddress: cached resolution against the target
table, threading the updated target cache through the registry. -/
def GetTargetVirtualAddress (env : Env) (mem : Mem) (st : Registry)
    (method : MethodRef) : Member × Registry :=
  ((GetVirtualAddressInternal env mem st.target_cache st.target_vtable
      st.target_size method).fst,
   { st with target_cache :=
      (GetVirtualAddressInternal env mem st.target_cache st.target_vtable
        st.target_size method).snd })

/-- ClassProxy::GetSubstituteVirtualAddress: cached resolution against the
substitute table. -/
def GetSubstituteVirtualAddress (env : Env) (mem : Mem) (st : Registry)
    (method : MethodRef) : Member × Registry :=
  ((GetVirtualAddressInternal env mem st.substitute_cache st.substitute_vtable
      st.substitute_size method).fst,
   { st with substitute_cache :=
      (GetVirtualAddressInternal env mem st.substitute_cache st.substitute_vtable
        st.substitute_size method).snd })

/-- Detouring::ProtectMemory is an external primitive (defined outside the
given source); toggling page protection does not change any word value, so it
is modelled as a pure success signal. -/
def ProtectMemory (_pMemory : Nat) (_uiLen : Nat) (_protect : Bool) : Bool :=
  true

/-- ClassProxy::IsHookedInternal, function-pointer overload: a plain address
is hooked exactly when the hook map holds it. -/
def IsHookedInternalPtr (st : Registry) (original : Nat) : Bool :=
  (alistLookup st.hooks original).isSome

/-- ClassProxy::IsHookedInternal, member-pointer overload: registered in the
hook map under the extracted address, or resolved to a target slot whose live
value differs from the snapshot value.  Returns the possibly cache-extended
registry as well. -/
def IsHookedInternal (env : Env) (mem : Mem) (st : Registry)
    (original : MethodRef) : Bool × Registry :=
  match alistLookup st.hooks (GetAddress env original) with
  | some _ => (true, st)
  | none =>
    if st.target_size ≤ (GetTargetVirtualAddress env mem st original).fst.index then
      (false, (GetTargetVirtualAddress env mem st original).snd)
    else
      (slotRead mem st.target_vtable
          (GetTargetVirtualAddress env mem st original).fst.index
        != st.original_vtable.getD
          (GetTargetVirtualAddress env mem st original).fst.index 0,
       (GetTargetVirtualAddress env mem st original).snd)

/-- ClassProxy::HookInternal, function-pointer overload: always the non-slot
trampoline path.  Note that operator-square-brackets on the hook map inserts
a default-constructed handle before Create runs, and that handle stays in the
map when Create or Enable fails. -/
def HookInternalPtr (env : Env) (st : Registry) (original : Nat)
    (substitute : MethodRef) : Bool × Registry :=
  if original = 0 then (false, st)
  else
    match alistLookup st.hooks original with
    | some _ => (false, st)
    | none =>
      let subst := GetAddress env substitute
      if subst = 0 then (false, st)
      else
        let c := Hook.Create env {} original subst
        if c.fst then
          let e := Hook.Enable env c.snd
          (e.fst, { st with hooks := alistInsert st.hooks original e.snd })
        else
          (false, { st with hooks := alistInsert st.hooks original c.snd })

/-- ClassProxy::HookInternal, member-pointer overload.  Slot path: if the
reference resolves to a target slot, fail when the live slot already differs
from the snapshot, resolve the substitute, and overwrite the one slot under
the protection bracket.  Non-slot path: fall through to the trampoline
collaborator exactly as the function-pointer overload does. -/
def HookInternal (env : Env) (mem : Mem) (st : Registry)
    (original substitute : MethodRef) : Bool × Mem × Registry :=
  let p := GetTargetVirtualAddress env mem st original
  if p.fst.index < st.target_size then
    if slotRead mem p.snd.target_vtable p.fst.index ≠
        p.snd.original_vtable.getD p.fst.index 0 then
      (false, mem, p.snd)
    else
      let q := GetSubstituteVirtualAddress env mem p.snd substitute
      if q.snd.substitute_size ≤ q.fst.index then (false, mem, q.snd)
      else
        let _ := ProtectMemory (q.snd.target_vtable + ptrSize * p.fst.index) ptrSize false
        let _ := ProtectMemory (q.snd.target_vtable + ptrSize * p.fst.index) ptrSize true
        (true, memWrite mem (q.snd.target_vtable + ptrSize * p.fst.index) q.fst.address,
         q.snd)
  else
    let address := GetAddress env original
    if address = 0 then (false, mem, p.snd)
    else
      match alistLookup p.snd.hooks address with
      | some _ => (false, mem, p.snd)
      | none =>
        let subst := GetAddress env substitute
        if subst = 0 then (false, mem, p.snd)
        else
          let c := Hook.Create env {} address subst
          if c.fst then
            let e := Hook.Enable env c.snd
            (e.fst, mem, { p.snd with hooks := alistInsert p.snd.hooks address e.snd })
          else
            (false, mem, { p.snd with hooks := alistInsert p.snd.hooks address c.snd })

/-- ClassProxy::UnHookInternal, function-pointer overload: erase a registered
hook, otherwise fail. -/
def UnHookInternalPtr (st : Registry) (original : Nat) : Bool × Registry :=
  match alistLookup st.hooks original with
  | some _ => (true, { st with hooks := alistErase st.hooks original })
  | none => (false, st)

/-- ClassProxy::UnHookInternal, member-pointer overload: erase a registered
non-slot hook; otherwise resolve against the target table, fail when not
found or when the live slot already equals the snapshot value, and otherwise
restore the snapshot value into the slot under the protection bracket. -/
def UnHookInternal (env : Env) (mem : Mem) (st : Registry)
    (original : MethodRef) : Bool × Mem × Registry :=
  match alistLookup st.hooks (GetAddress env original) with
  | some _ => (true, mem, { st with hooks := alistErase st.hooks (GetAddress env original) })
  | none =>
    let p := GetTargetVirtualAddress env mem st original
    if st.target_size ≤ p.fst.index then (false, mem, p.snd)
    else
      if slotRead mem p.snd.target_vtable p.fst.index =
          p.snd.original_vtable.getD p.fst.index 0 then
        (false, mem, p.snd)
      else
        let _ := ProtectMemory (p.snd.target_vtable + ptrSize * p.fst.index) ptrSize false
        let _ := ProtectMemory (p.snd.target_vtable + ptrSize * p.fst.index) ptrSize true
        (true,
         memWrite mem (p.snd.target_vtable + ptrSize * p.fst.index)
           (p.snd.original_vtable.getD p.fst.index 0),
         p.snd)

/-- Observable outcome of CallInternal: an indirect call through a concrete
code address, or the declared result type's default value. -/
inductive CallAction where
  | invoke (addr : Nat)
  | retDefault
deriving DecidableEq

/-- First step of CallInternal: look the address up in the hook map; on a hit
the trampoline becomes the candidate address, and the index is marked found
(set to 0) only when the trampoline is non-null. -/
def hookLookupMember (st : Registry) (address : Nat) : Member :=
  match alistLookup st.hooks address with
  | some h =>
    if Hook.GetTrampoline h ≠ 0 then { address := Hook.GetTrampoline h, index := 0 }
    else { address := Hook.GetTrampoline h, index := Member.sentinel.index }
  | none => Member.sentinel

/-- ClassProxy::CallInternal, function-pointer overload: trampoline if a hook
with a non-null trampoline is registered for the raw address, else the raw
address itself when non-null, else the default value; each candidate is
accepted only when its index passes the comparison against target_size. -/
def CallInternalPtr (st : Registry) (original : Nat) : CallAction :=
  let target0 := hookLookupMember st original
  let target1 :=
    if st.target_size ≤ target0.index then
      if original ≠ 0 then ({ address := original, index := 0 } : Member)
      else { address := original, index := target0.index }
    else target0
  if st.target_size ≤ target1.index then CallAction.retDefault
  else CallAction.invoke target1.address

/-- ClassProxy::CallInternal, member-pointer overload: trampoline of a
registered hook when non-null, else the snapshot value of the resolved target
slot, else the extracted raw address when non-null, else the default value;
each candidate is accepted only when its index passes the comparison against
target_size.  The registry is returned because the slot resolution may extend
the target cache. -/
def CallInternal (env : Env) (mem : Mem) (st : Registry)
    (original : MethodRef) : CallAction × Registry :=
  let address := GetAddress env original
  let target0 := hookLookupMember st address
  let step2 :=
    if st.target_size ≤ target0.index then
      let p := GetTargetVirtualAddress env mem st original
      if p.fst.index < st.target_size then
        (({ address := st.original_vtable.getD p.fst.index 0,
            index := p.fst.index } : Member), p.snd)
      else (p.fst, p.snd)
    else (target0, st)
  let target2 :=
    if st.target_size ≤ step2.fst.index then
      if address ≠ 0 then ({ address := address, index := 0 } : Member)
      else { address := address, index := step2.fst.index }
    else step2.fst
  if st.target_size ≤ target2.index then (CallAction.retDefault, step2.snd)
  else (CallAction.invoke target2.address, step2.snd)

/-- The snapshot walk of ClassProxy::Initialize: copy consecutive non-null
slots, stopping at the first null slot or when the fuel (the vector capacity
bound) runs out. -/
def collectSnapshot (mem : Mem) : Nat → Nat → List Nat
  | 0, _ => []
  | fuel + 1, p => if mem p = 0 then [] else mem p :: collectSnapshot mem fuel (p + ptrSize)

/-- The substitute-size walk of ClassProxy::Initialize: advance the slot
counter past consecutive non-null slots until a null terminator; the
unbounded source loop is modelled with the same capacity fuel. -/
def countSlots (mem : Mem) (vt : Nat) : Nat → Nat → Nat
  | 0, k => k
  | fuel + 1, k => if mem (vt + ptrSize * k) = 0 then k else countSlots mem vt fuel (k + 1)

/-- ClassProxy::Initialize: fail when already initialized; locate the target
table and fail (resetting the table pointer to null) when it is null or its
first entry fails the executability probe; otherwise capture the snapshot,
record target_size, locate the substitute table and count its slots. -/
def Initialize (env : Env) (mem : Mem) (st : Registry)
    (instance_ : Nat) (substitute : Nat) : Bool × Registry :=
  if st.target_vtable ≠ 0 then (false, st)
  else
    let tv := GetVirtualTable mem instance_
    if tv = 0 ∨ env.isExec (mem tv) = false then
      (false, { st with target_vtable := 0 })
    else
      let snap := st.original_vtable ++
        collectSnapshot mem (env.maxCap - st.original_vtable.length) tv
      let sv := GetVirtualTable mem substitute
      (true, { st with
        target_vtable := tv,
        original_vtable := snap,
        target_size := snap.length,
        substitute_vtable := sv,
        substitute_size := countSlots mem sv env.maxCap st.substitute_size })

/-- One public operation of the ClassProxy surface, with its arguments. -/
inductive Op where
  | hookM (o s : MethodRef)
  | hookP (p : Nat) (s : MethodRef)
  | unhookM (o : MethodRef)
  | unhookP (p : Nat)
  | isHookedM (o : MethodRef)
  | isHookedP (p : Nat)
  | callM (o : MethodRef)
  | callP (p : Nat)

/-- Effect of one public operation on the memory and the registry. -/
def step (env : Env) (op : Op) : Mem × Registry → Mem × Registry
  | (mem, st) =>
    match op with
    | .hookM o s => (HookInternal env mem st o s).snd
    | .hookP p s => (mem, (HookInternalPtr env st p s).snd)
    | .unhookM o => (UnHookInternal env mem st o).snd
    | .unhookP p => (mem, (UnHookInternalPtr st p).snd)
    | .isHookedM o => (mem, (IsHookedInternal env mem st o).snd)
    | .isHookedP _ => (mem, st)
    | .callM o => (mem, (CallInternal env mem st o).snd)
    | .callP _ => (mem, st)

/-- Run a sequence of public operations. -/
def runOps (env : Env) : List Op → Mem × Registry → Mem × Registry
  | [], ms => ms
  | op :: rest, ms => runOps env rest (step env op ms)

/-- Concrete environment used to evaluate the model: no thunk bytes anywhere,
every address executable, the trampoline collaborator always succeeds and
hands out trampoline address 777. -/
def testEnv : Env :=
  { code := fun _ => 0, isExec := fun _ => true,
    createOK := fun _ _ => true, enableOK := fun _ _ => true,
    trampOf := fun _ _ => 777, maxCap := 16 }

/-- Variant environment whose trampoline collaborator fails Create. -/
def failEnv : Env :=
  { testEnv with createOK := fun _ _ => false }

/-- Concrete memory: an instance at 50 pointing to a 3-slot target table at
100 (slots 11, 22, 33), and an instance at 60 pointing to a 2-slot
substitute table at 200 (slots 77, 88). -/
def testMem : Mem := fun a =>
  if a = 50 then 100
  else if a = 60 then 200
  else if a = 100 then 11
  else if a = 108 then 22
  else if a = 116 then 33
  else if a = 200 then 77
  else if a = 208 then 88
  else 0

/-- Registry state right after a successful Initialize on testMem. -/
def baseSt : Registry :=
  { target_size := 3, target_vtable := 100,
    target_cache := [], original_vtable := [11, 22, 33],
    substitute_size := 2, substitute_vtable := 200,
    substitute_cache := [], hooks := [] }

/-- Method reference whose extracted address 22 scans to target slot 1. -/
def oRef : MethodRef := ⟨22⟩

/-- Method reference whose extracted address 88 scans to substitute slot 1. -/
def sRef : MethodRef := ⟨88⟩

/-- Method reference whose extracted address 5 matches no table slot. -/
def oRefMiss : MethodRef := ⟨5⟩

/-- Memory after hooking target slot 1 to the substitute address 88. -/
def hookedMem : Mem := memWrite testMem 108 88

/-- Registry with both resolver caches warmed by the successful resolutions
of oRef (target slot 1) and sRef (substitute slot 1). -/
def cachedSt : Registry :=
  { baseSt with target_cache := [(22, ⟨22, 1⟩)],
                substitute_cache := [(88, ⟨88, 1⟩)] }

/-- An installed trampoline-hook handle for address 22. -/
def trampHook : Hook :=
  { target := 22, detour := 88, created := true, enabled := true, trampoline := 777 }

/-- Initialized registry carrying a non-slot hook for address 22. -/
def trampSt : Registry := { baseSt with hooks := [(22, trampHook)] }

/-- Uninitialized registry (target_size 0) that nevertheless carries a
non-slot hook with a non-null trampoline for address 22. -/
def uninitHookSt : Registry := { hooks := [(22, trampHook)] }

theorem alistLookup_insert_self {α : Type} (l : List (Nat × α)) (k : Nat) (v : α) :
    alistLookup (alistInsert l k v) k = some v := by
  induction l with
  | nil => simp [alistInsert, alistLookup]
  | cons hd tl ih =>
    obtain ⟨k0, v0⟩ := hd
    by_cases h : k0 = k
    · simp [alistInsert, alistLookup, h]
    · simp [alistInsert, alistLookup, h, ih]

theorem gvai_snd_of_fail (env : Env) (mem : Mem) (cache : CacheMap) (vt size : Nat)
    (o : MethodRef)
    (h : size ≤ (GetVirtualAddressInternal env mem cache vt size o).fst.index) :
    (GetVirtualAddressInternal env mem cache vt size o).snd = cache := by
  unfold GetVirtualAddressInternal at h ⊢
  cases hl : alistLookup cache (GetAddress env o) with
  | some m => simp [hl]
  | none =>
    by_cases hidx : (GetVirtualAddress env mem vt size o).index < size
    · simp only [hl, hidx, if_true] at h
      omega
    · simp [hl, hidx]

theorem GTVA_hit (env : Env) (mem : Mem) (st : Registry) (o : MethodRef) (m : Member)
    (h : alistLookup st.target_cache (GetAddress env o) = some m) :
    GetTargetVirtualAddress env mem st o = (m, st) := by
  unfold GetTargetVirtualAddress GetVirtualAddressInternal
  simp only [h]

theorem GSVA_hit (env : Env) (mem : Mem) (st : Registry) (o : MethodRef) (m : Member)
    (h : alistLookup st.substitute_cache (GetAddress env o) = some m) :
    GetSubstituteVirtualAddress env mem st o = (m, st) := by
  unfold GetSubstituteVirtualAddress GetVirtualAddressInternal
  simp only [h]

theorem GTVA_fail (env : Env) (mem : Mem) (st : Registry) (o : MethodRef)
    (h : st.target_size ≤ (GetTargetVirtualAddress env mem st o).fst.index) :
    (GetTargetVirtualAddress env mem st o).snd = st := by
  have h2 : st.target_size ≤ (GetVirtualAddressInternal env mem st.target_cache
      st.target_vtable st.target_size o).fst.index := h
  have h3 := gvai_snd_of_fail env mem st.target_cache st.target_vtable st.target_size o h2
  unfold GetTargetVirtualAddress
  rw [h3]

theorem registry_update_tv_self (st : Registry) (h : st.target_vtable = 0) :
    { st with target_vtable := 0 } = st := by
  cases st
  simp_all

theorem HookInternal_registry_frame (env : Env) (mem : Mem) (st : Registry)
    (o s : MethodRef) :
    ((HookInternal env mem st o s).snd.snd).original_vtable = st.original_vtable ∧
    ((HookInternal env mem st o s).snd.snd).target_vtable = st.target_vtable ∧
    ((HookInternal env mem st o s).snd.snd).target_size = st.target_size := by
  refine ⟨?_, ?_, ?_⟩ <;> simp only [HookInternal] <;> (repeat' split) <;> rfl

theorem HookInternalPtr_registry_frame (env : Env) (st : Registry)
    (p : Nat) (s : MethodRef) :
    ((HookInternalPtr env st p s).snd).original_vtable = st.original_vtable ∧
    ((HookInternalPtr env st p s).snd).target_vtable = st.target_vtable ∧
    ((HookInternalPtr env st p s).snd).target_size = st.target_size := by
  refine ⟨?_, ?_, ?_⟩ <;> simp only [HookInternalPtr] <;> (repeat' split) <;> rfl

theorem UnHookInternal_registry_frame (env : Env) (mem : Mem) (st : Registry)
    (o : MethodRef) :
    ((UnHookInternal env mem st o).snd.snd).original_vtable = st.original_vtable ∧
    ((UnHookInternal env mem st o).snd.snd).target_vtable = st.target_vtable ∧
    ((UnHookInternal env mem st o).snd.snd).target_size = st.target_size := by
  refine ⟨?_, ?_, ?_⟩ <;> simp only [UnHookInternal] <;> (repeat' split) <;> rfl

theorem UnHookInternalPtr_registry_frame (st : Registry) (p : Nat) :
    ((UnHookInternalPtr st p).snd).original_vtable = st.original_vtable ∧
    ((UnHookInternalPtr st p).snd).target_vtable = st.target_vtable ∧
    ((UnHookInternalPtr st p).snd).target_size = st.target_size := by
  refine ⟨?_, ?_, ?_⟩ <;> simp only [UnHookInternalPtr] <;> (repeat' split) <;> rfl

theorem IsHookedInternal_registry_frame (env : Env) (mem : Mem) (st : Registry)
    (o : MethodRef) :
    ((IsHookedInternal env mem st o).snd).original_vtable = st.original_vtable ∧
    ((IsHookedInternal env mem st o).snd).target_vtable = st.target_vtable ∧
    ((IsHookedInternal env mem st o).snd).target_size = st.target_size := by
  refine ⟨?_, ?_, ?_⟩ <;> simp only [IsHookedInternal] <;> (repeat' split) <;> rfl

theorem CallInternal_registry_frame (env : Env) (mem : Mem) (st : Registry)
    (o : MethodRef) :
    ((CallInternal env mem st o).snd).original_vtable = st.original_vtable ∧
    ((CallInternal env mem st o).snd).target_vtable = st.target_vtable ∧
    ((CallInternal env mem st o).snd).target_size = st.target_size := by
  refine ⟨?_, ?_, ?_⟩ <;> simp only [CallInternal] <;> (repeat' split) <;> rfl

theorem step_registry_frame (env : Env) (op : Op) (ms : Mem × Registry) :
    ((step env op ms).snd).original_vtable = ms.snd.original_vtable ∧
    ((step env op ms).snd).target_vtable = ms.snd.target_vtable ∧
    ((step env op ms).snd).target_size = ms.snd.target_size := by
  obtain ⟨mem, st⟩ := ms
  cases op with
  | hookM o s => exact HookInternal_registry_frame env mem st o s
  | hookP p s => exact HookInternalPtr_registry_frame env st p s
  | unhookM o => exact UnHookInternal_registry_frame env mem st o
  | unhookP p => exact UnHookInternalPtr_registry_frame st p
  | isHookedM o => exact IsHookedInternal_registry_frame env mem st o
  | isHookedP p => exact ⟨rfl, rfl, rfl⟩
  | callM o => exact CallInternal_registry_frame env mem st o
  | callP p => exact ⟨rfl, rfl, rfl⟩

theorem runOps_registry_frame (env : Env) (ops : List Op) (ms : Mem × Registry) :
    ((runOps env ops ms).snd).original_vtable = ms.snd.original_vtable ∧
    ((runOps env ops ms).snd).target_vtable = ms.snd.target_vtable ∧
    ((runOps env ops ms).snd).target_size = ms.snd.target_size := by
  induction ops generalizing ms with
  | nil => exact ⟨rfl, rfl, rfl⟩
  | cons op rest ih =>
    have h1 := step_registry_frame env op ms
    have h2 := ih (step env op ms)
    simp only [runOps]
    exact ⟨h2.1.trans h1.1, h2.2.1.trans h1.2.1, h2.2.2.trans h1.2.2⟩

/-- C5: IsHooked returns true exactly when a non-slot hook is registered for
the extracted raw address, or the reference resolves to a target slot whose
live table value differs from the snapshot value at that index; in every
other case, including a failed resolution, it returns false. -/
theorem c5_ishooked_iff (env : Env) (mem : Mem) (st : Registry) (o : MethodRef) :
    (IsHookedInternal env mem st o).fst = true ↔
      ((alistLookup st.hooks (GetAddress env o)).isSome ∨
        ((GetTargetVirtualAddress env mem st o).fst.index < st.target_size ∧
          slotRead mem st.target_vtable (GetTargetVirtualAddress env mem st o).fst.index ≠
            st.original_vtable.getD (GetTargetVirtualAddress env mem st o).fst.index 0)) := by
  unfold IsHookedInternal
  cases hl : alistLookup st.hooks (GetAddress env o) with
  | some h => simp [hl]
  | none =>
    by_cases hidx : st.target_size ≤ (GetTargetVirtualAddress env mem st o).fst.index
    · simp only [hl, hidx, if_true]
      simp
      omega
    · simp only [hl, hidx, if_false]
      simp [bne_iff_ne]
      omega

/-- C6: for a given type pair, the first Initialize succeeds exactly when the
located target table is non-null and its first entry passes the executability
probe; a successful Initialize leaves the table pointer non-null, no public
operation ever changes the table pointer, and every Initialize performed when
the table pointer is non-null fails and returns the registry untouched. -/
theorem c6_initialize_once (env : Env) (mem : Mem) (st : Registry)
    (instance_ substitute : Nat) :
    (st.target_vtable = 0 →
      ((Initialize env mem st instance_ substitute).fst = true ↔
        (GetVirtualTable mem instance_ ≠ 0 ∧
          env.isExec (mem (GetVirtualTable mem instance_)) = true))) ∧
    (st.target_vtable ≠ 0 →
      Initialize env mem st instance_ substitute = (false, st)) ∧
    (∀ st2, Initialize env mem st instance_ substitute = (true, st2) →
      st2.target_vtable ≠ 0) ∧
    (∀ op ms, ((step env op ms).snd).target_vtable = ms.snd.target_vtable) := by
  refine ⟨?_, ?_, ?_, ?_⟩
  · intro h0
    unfold Initialize
    simp only [h0]
    by_cases hbad : GetVirtualTable mem instance_ = 0 ∨
        env.isExec (mem (GetVirtualTable mem instance_)) = false
    · simp [hbad]
      intro hne
      rcases hbad with hb | hb
      · exact absurd hb hne
      · simp [hb]
    · push_neg at hbad
      simp [hbad.1, hbad.2]
  · intro h0
    unfold Initialize
    simp [h0]
  · intro st2 hsucc
    unfold Initialize at hsucc
    by_cases h0 : st.target_vtable ≠ 0
    · simp [h0] at hsucc
    · simp only [h0, if_false] at hsucc
      by_cases hbad : GetVirtualTable mem instance_ = 0 ∨
          env.isExec (mem (GetVirtualTable mem instance_)) = false
      · simp [hbad] at hsucc
      · push_neg at hbad
        rw [if_neg (by simp [hbad.1, hbad.2])] at hsucc
        rw [Prod.mk.injEq] at hsucc
        rw [← hsucc.2]
        exact hbad.1
  · intro op ms
    exact (step_registry_frame env op ms).2.1

/-- C9: before a successful Initialize (target_size is 0) every Call returns
the declared result type's default value and invokes no code, in both the
member-pointer and the function-pointer overload, whatever hooks are
registered and whatever the raw address resolves to. -/
theorem c9_uninitialized_call_default (env : Env) (mem : Mem) (st : Registry)
    (o : MethodRef) (p : Nat) (hsz : st.target_size = 0) :
    (CallInternal env mem st o).fst = CallAction.retDefault ∧
    CallInternalPtr st p = CallAction.retDefault := by
  constructor
  · unfold CallInternal
    simp [hsz]
  · unfold CallInternalPtr
    simp [hsz]

/-- C9 witness: with an uninitialized registry that even carries an enabled
non-slot hook with non-null trampoline, Call returns the default value. -/
theorem c9_witness :
    uninitHookSt.target_size = 0 ∧
    (CallInternal testEnv testMem uninitHookSt oRef).fst = CallAction.retDefault ∧
    CallInternalPtr uninitHookSt 22 = CallAction.retDefault :=
  ⟨by decide, c9_uninitialized_call_default testEnv testMem uninitHookSt oRef 22 (by decide)⟩

/-- C5 witness: the characterization evaluated on the concrete hooked state,
where IsHooked is true because slot 1 differs from its snapshot value. -/
theorem c5_witness :
    (IsHookedInternal testEnv hookedMem cachedSt oRef).fst = true ↔
      ((alistLookup cachedSt.hooks (GetAddress testEnv oRef)).isSome ∨
        ((GetTargetVirtualAddress testEnv hookedMem cachedSt oRef).fst.index <
            cachedSt.target_size ∧
          slotRead hookedMem cachedSt.target_vtable
              (GetTargetVirtualAddress testEnv hookedMem cachedSt oRef).fst.index ≠
            cachedSt.original_vtable.getD
              (GetTargetVirtualAddress testEnv hookedMem cachedSt oRef).fst.index 0)) :=
  c5_ishooked_iff testEnv hookedMem cachedSt oRef

/-- C6 witness: on the concrete memory the first Initialize of the empty
registry succeeds, and Initialize on the already-initialized registry fails
without changing it. -/
theorem c6_witness :
    ({} : Registry).target_vtable = 0 ∧
    ((Initialize testEnv testMem {} 50 60).fst = true ↔
      (GetVirtualTable testMem 50 ≠ 0 ∧
        testEnv.isExec (testMem (GetVirtualTable testMem 50)) = true)) ∧
    baseSt.target_vtable ≠ 0 ∧
    Initialize testEnv testMem baseSt 50 60 = (false, baseSt) :=
  ⟨by decide, (c6_initialize_once testEnv testMem {} 50 60).1 (by decide),
   by decide, (c6_initialize_once testEnv testMem baseSt 50 60).2.1 (by decide)⟩

/-- C4: Unhook removes a registered non-slot hook and succeeds; fails when
the reference resolves to no target slot; fails with all state unchanged when
the resolved slot already holds its snapshot value; and otherwise writes the
snapshot value back into that one slot and succeeds, after which the slot
again holds its pre-hook content.  The resolved slot is pinned through the
cache entry that the resolution of this same member reference created. -/
theorem c4_unhook_semantics (env : Env) (mem : Mem) (st : Registry) (o : MethodRef) :
    ((alistLookup st.hooks (GetAddress env o)).isSome →
      UnHookInternal env mem st o =
        (true, mem, { st with hooks := alistErase st.hooks (GetAddress env o) })) ∧
    (alistLookup st.hooks (GetAddress env o) = none →
      st.target_size ≤ (GetTargetVirtualAddress env mem st o).fst.index →
      UnHookInternal env mem st o = (false, mem, st)) ∧
    (∀ m, alistLookup st.hooks (GetAddress env o) = none →
      alistLookup st.target_cache (GetAddress env o) = some m →
      m.index < st.target_size →
      slotRead mem st.target_vtable m.index = st.original_vtable.getD m.index 0 →
      UnHookInternal env mem st o = (false, mem, st)) ∧
    (∀ m, alistLookup st.hooks (GetAddress env o) = none →
      alistLookup st.target_cache (GetAddress env o) = some m →
      m.index < st.target_size →
      slotRead mem st.target_vtable m.index ≠ st.original_vtable.getD m.index 0 →
      (UnHookInternal env mem st o =
        (true, memWrite mem (st.target_vtable + ptrSize * m.index)
          (st.original_vtable.getD m.index 0), st) ∧
       slotRead ((UnHookInternal env mem st o).snd.fst) st.target_vtable m.index =
         st.original_vtable.getD m.index 0)) := by
  refine ⟨?_, ?_, ?_, ?_⟩
  · intro hs
    rcases Option.isSome_iff_exists.mp hs with ⟨h, hl⟩
    unfold UnHookInternal
    simp only [hl]
  · intro hl hidx
    unfold UnHookInternal
    simp only [hl]
    rw [if_pos hidx, GTVA_fail env mem st o hidx]
  · intro m hl hc hidx heq
    unfold UnHookInternal
    simp only [hl, GTVA_hit env mem st o m hc]
    rw [if_neg (by omega)]
    simp only [heq, if_pos]
  · intro m hl hc hidx hne
    have hmain : UnHookInternal env mem st o =
        (true, memWrite mem (st.target_vtable + ptrSize * m.index)
          (st.original_vtable.getD m.index 0), st) := by
      unfold UnHookInternal
      simp only [hl, GTVA_hit env mem st o m hc]
      rw [if_neg (by omega)]
      rw [if_neg hne]
    refine ⟨hmain, ?_⟩
    rw [hmain]
    simp [slotRead, memWrite]

/-- C4 witness: on the concrete hooked state, Unhook restores slot 1 of the
target table from the snapshot and succeeds. -/
theorem c4_witness :
    alistLookup cachedSt.hooks (GetAddress testEnv oRef) = none ∧
    alistLookup cachedSt.target_cache (GetAddress testEnv oRef) = some ⟨22, 1⟩ ∧
    (1 : Nat) < cachedSt.target_size ∧
    slotRead hookedMem cachedSt.target_vtable 1 ≠ cachedSt.original_vtable.getD 1 0 ∧
    (UnHookInternal testEnv hookedMem cachedSt oRef =
      (true, memWrite hookedMem (cachedSt.target_vtable + ptrSize * 1)
        (cachedSt.original_vtable.getD 1 0), cachedSt) ∧
     slotRead ((UnHookInternal testEnv hookedMem cachedSt oRef).snd.fst)
       cachedSt.target_vtable 1 = cachedSt.original_vtable.getD 1 0) :=
  ⟨by decide, by decide, by decide, by decide,
   (c4_unhook_semantics testEnv hookedMem cachedSt oRef).2.2.2 ⟨22, 1⟩
     (by decide) (by decide) (by decide) (by decide)⟩

/-- C3: re-hooking an already-hooked member fails without side effects: when
the member resolves (through the cache entry its first Hook call created) to
a slot whose live value differs from the snapshot, or when it resolves to no
slot and a non-slot hook is already registered for its extracted address,
HookInternal returns false and leaves the memory and registry exactly as
they were. -/
theorem c3_rehook_fails_no_side_effects (env : Env) (mem : Mem) (st : Registry)
    (o s : MethodRef) :
    (∀ m, alistLookup st.target_cache (GetAddress env o) = some m →
      m.index < st.target_size →
      slotRead mem st.target_vtable m.index ≠ st.original_vtable.getD m.index 0 →
      HookInternal env mem st o s = (false, mem, st)) ∧
    (st.target_size ≤ (GetTargetVirtualAddress env mem st o).fst.index →
      (alistLookup st.hooks (GetAddress env o)).isSome →
      HookInternal env mem st o s = (false, mem, st)) := by
  constructor
  · intro m hc hidx hne
    unfold HookInternal
    simp only [GTVA_hit env mem st o m hc]
    rw [if_pos hidx]
    rw [if_pos hne]
  · intro hidx hs
    rcases Option.isSome_iff_exists.mp hs with ⟨h, hl⟩
    have hsnd := GTVA_fail env mem st o hidx
    unfold HookInternal
    rw [if_neg (by omega), hsnd]
    by_cases ha : GetAddress env o = 0
    · simp [ha]
    · simp [ha, hl]

/-- C3 witness: on the concrete hooked state, hooking slot 1 a second time
fails and changes neither the memory nor the registry. -/
theorem c3_witness :
    alistLookup cachedSt.target_cache (GetAddress testEnv oRef) = some ⟨22, 1⟩ ∧
    (1 : Nat) < cachedSt.target_size ∧
    slotRead hookedMem cachedSt.target_vtable 1 ≠ cachedSt.original_vtable.getD 1 0 ∧
    HookInternal testEnv hookedMem cachedSt oRef sRef = (false, hookedMem, cachedSt) :=
  ⟨by decide, by decide, by decide,
   (c3_rehook_fails_no_side_effects testEnv hookedMem cachedSt oRef sRef).1 ⟨22, 1⟩
     (by decide) (by decide) (by decide)⟩

/-- C7: the memoizing resolver caches an entry only for a successful
resolution: a cache miss that resolves to a slot stores the Member under the
extracted address and any later resolution of the same reference returns that
identical Member from the cache, independent of the current table contents
(no rescan); a cache miss that fails to resolve leaves the cache unchanged,
so the reference is resolved against the table again on every call. -/
theorem c7_resolver_cache (env : Env) (mem : Mem) (cache : CacheMap)
    (vt size : Nat) (o : MethodRef)
    (hmiss : alistLookup cache (GetAddress env o) = none) :
    ((GetVirtualAddress env mem vt size o).index < size →
      (GetVirtualAddressInternal env mem cache vt size o =
        (GetVirtualAddress env mem vt size o,
         alistInsert cache (GetAddress env o) (GetVirtualAddress env mem vt size o)) ∧
       (∀ mem2 vt2,
         GetVirtualAddressInternal env mem2
             (alistInsert cache (GetAddress env o) (GetVirtualAddress env mem vt size o))
             vt2 size o =
           (GetVirtualAddress env mem vt size o,
            alistInsert cache (GetAddress env o) (GetVirtualAddress env mem vt size o))))) ∧
    (size ≤ (GetVirtualAddress env mem vt size o).index →
      GetVirtualAddressInternal env mem cache vt size o =
        (GetVirtualAddress env mem vt size o, cache)) := by
  constructor
  · intro hidx
    constructor
    · unfold GetVirtualAddressInternal
      simp only [hmiss]
      rw [if_pos hidx]
    · intro mem2 vt2
      unfold GetVirtualAddressInternal
      simp only [alistLookup_insert_self]
  · intro hidx
    unfold GetVirtualAddressInternal
    simp only [hmiss]
    rw [if_neg (by omega)]

/-- C7 witness: resolving oRef against the concrete target table caches its
Member, and the second resolution is served from the cache even after the
table slot was overwritten. -/
theorem c7_witness :
    alistLookup ([] : CacheMap) (GetAddress testEnv oRef) = none ∧
    (GetVirtualAddress testEnv testMem 100 3 oRef).index < 3 ∧
    GetVirtualAddressInternal testEnv testMem [] 100 3 oRef =
      (GetVirtualAddress testEnv testMem 100 3 oRef,
       alistInsert [] (GetAddress testEnv oRef) (GetVirtualAddress testEnv testMem 100 3 oRef)) ∧
    GetVirtualAddressInternal testEnv hookedMem
        (alistInsert [] (GetAddress testEnv oRef) (GetVirtualAddress testEnv testMem 100 3 oRef))
        100 3 oRef =
      (GetVirtualAddress testEnv testMem 100 3 oRef,
       alistInsert [] (GetAddress testEnv oRef) (GetVirtualAddress testEnv testMem 100 3 oRef)) :=
  ⟨by decide, by decide,
   ((c7_resolver_cache testEnv testMem [] 100 3 oRef (by decide)).1 (by decide)).1,
   ((c7_resolver_cache testEnv testMem [] 100 3 oRef (by decide)).1 (by decide)).2 hookedMem 100⟩

theorem hlm_tramp (st : Registry) (a : Nat) (h : Hook)
    (hl : alistLookup st.hooks a = some h) (ht : Hook.GetTrampoline h ≠ 0) :
    hookLookupMember st a = { address := Hook.GetTrampoline h, index := 0 } := by
  unfold hookLookupMember
  simp [hl, ht]

theorem hlm_sentinel_index (st : Registry) (a : Nat)
    (h0 : ∀ h, alistLookup st.hooks a = some h → Hook.GetTrampoline h = 0) :
    (hookLookupMember st a).index = SIZE_MAX := by
  unfold hookLookupMember
  cases hl : alistLookup st.hooks a with
  | none => rfl
  | some h => simp [h0 h hl, Member.sentinel]

/-- C8: the snapshot captured at Initialize is never mutated afterwards: any
sequence of Hook, Unhook, IsHooked and Call operations leaves original_vtable
exactly as it was; and a slot-path Hook of slot i writes only the one live
table word of slot i (setting it to the substitute address) while the
snapshot keeps its captured value. -/
theorem c8_snapshot_immutable (env : Env) :
    (∀ (ops : List Op) (mem : Mem) (st : Registry),
      ((runOps env ops (mem, st)).snd).original_vtable = st.original_vtable) ∧
    (∀ (mem : Mem) (st : Registry) (o s : MethodRef) (m msub : Member),
      alistLookup st.target_cache (GetAddress env o) = some m →
      m.index < st.target_size →
      slotRead mem st.target_vtable m.index = st.original_vtable.getD m.index 0 →
      alistLookup st.substitute_cache (GetAddress env s) = some msub →
      msub.index < st.substitute_size →
      ((HookInternal env mem st o s).fst = true ∧
       slotRead ((HookInternal env mem st o s).snd.fst) st.target_vtable m.index =
         msub.address ∧
       (∀ a, a ≠ st.target_vtable + ptrSize * m.index →
         ((HookInternal env mem st o s).snd.fst) a = mem a) ∧
       ((HookInternal env mem st o s).snd.snd).original_vtable = st.original_vtable)) := by
  constructor
  · intro ops mem st
    exact (runOps_registry_frame env ops (mem, st)).1
  · intro mem st o s m msub hc hidx heq hcs hsidx
    have hmain : HookInternal env mem st o s =
        (true, memWrite mem (st.target_vtable + ptrSize * m.index) msub.address, st) := by
      unfold HookInternal
      simp only [GTVA_hit env mem st o m hc]
      rw [if_pos hidx]
      rw [if_neg (by simp [heq])]
      simp only [GSVA_hit env mem st s msub hcs]
      rw [if_neg (by omega)]
    refine ⟨by rw [hmain], ?_, ?_, ?_⟩
    · rw [hmain]
      simp [slotRead, memWrite]
    · intro a ha
      rw [hmain]
      simp [memWrite, ha]
    · rw [hmain]

/-- C8 witness: a concrete operation sequence preserves the snapshot, and
hooking slot 1 concretely writes only the one word at address 108. -/
theorem c8_witness :
    ((runOps testEnv [Op.unhookM oRef, Op.isHookedM oRef, Op.callM oRef]
        (hookedMem, cachedSt)).snd).original_vtable = cachedSt.original_vtable ∧
    ((HookInternal testEnv testMem cachedSt oRef sRef).fst = true ∧
     slotRead ((HookInternal testEnv testMem cachedSt oRef sRef).snd.fst)
       cachedSt.target_vtable 1 = (88 : Nat) ∧
     ((HookInternal testEnv testMem cachedSt oRef sRef).snd.fst) 100 = testMem 100 ∧
     ((HookInternal testEnv testMem cachedSt oRef sRef).snd.snd).original_vtable =
       cachedSt.original_vtable) :=
  ⟨(c8_snapshot_immutable testEnv).1 [Op.unhookM oRef, Op.isHookedM oRef, Op.callM oRef]
     hookedMem cachedSt,
   ⟨((c8_snapshot_immutable testEnv).2 testMem cachedSt oRef sRef ⟨22, 1⟩ ⟨88, 1⟩
     (by decide) (by decide) (by decide) (by decide) (by decide)).1,
    ((c8_snapshot_immutable testEnv).2 testMem cachedSt oRef sRef ⟨22, 1⟩ ⟨88, 1⟩
     (by decide) (by decide) (by decide) (by decide) (by decide)).2.1,
    ((c8_snapshot_immutable testEnv).2 testMem cachedSt oRef sRef ⟨22, 1⟩ ⟨88, 1⟩
     (by decide) (by decide) (by decide) (by decide) (by decide)).2.2.1 100 (by decide),
    ((c8_snapshot_immutable testEnv).2 testMem cachedSt oRef sRef ⟨22, 1⟩ ⟨88, 1⟩
     (by decide) (by decide) (by decide) (by decide) (by decide)).2.2.2⟩⟩

/-- C2 counterexample: with a trampoline collaborator whose Create fails,
Hook on a non-slot member returns false, yet an entry for the original
address remains in the hook map (the map is not left unchanged, refuting the
claim as stated). -/
theorem c2_counterexample :
    (HookInternal failEnv testMem baseSt oRefMiss sRef).fst = false ∧
    ((HookInternal failEnv testMem baseSt oRefMiss sRef).snd.snd).hooks =
      [(5, ({} : Hook))] ∧
    baseSt.hooks = [] := by decide

/-- C2 (amended): on the non-slot Hook path, with both extracted addresses
non-null and no hook registered yet, the hook map always receives an entry
keyed by the original address: on Create and Enable success Hook returns true
with the installed handle recorded; when Create or Enable fails Hook returns
false, but a default-constructed (respectively created-but-not-enabled)
entry for that address remains in the map. -/
theorem c2_nonslot_hook_records_entry (env : Env) (mem : Mem) (st : Registry)
    (o s : MethodRef)
    (hidx : st.target_size ≤ (GetTargetVirtualAddress env mem st o).fst.index)
    (ha : GetAddress env o ≠ 0)
    (hl : alistLookup st.hooks (GetAddress env o) = none)
    (hs : GetAddress env s ≠ 0) :
    (env.createOK (GetAddress env o) (GetAddress env s) = false →
      HookInternal env mem st o s =
        (false, mem,
          { st with hooks := alistInsert st.hooks (GetAddress env o) ({} : Hook) })) ∧
    (env.createOK (GetAddress env o) (GetAddress env s) = true →
      HookInternal env mem st o s =
        (env.enableOK (GetAddress env o) (GetAddress env s), mem,
         { st with hooks := alistInsert st.hooks (GetAddress env o)
                              { target := GetAddress env o, detour := GetAddress env s,
                                created := true,
                                enabled := env.enableOK (GetAddress env o) (GetAddress env s),
                                trampoline :=
                                  env.trampOf (GetAddress env o) (GetAddress env s) } })) := by
  have hsnd := GTVA_fail env mem st o hidx
  constructor
  · intro hcreate
    unfold HookInternal
    rw [if_neg (by omega), hsnd]
    rw [if_neg ha]
    simp only [hl]
    rw [if_neg hs]
    simp [Hook.Create, hcreate]
  · intro hcreate
    unfold HookInternal
    rw [if_neg (by omega), hsnd]
    rw [if_neg ha]
    simp only [hl]
    rw [if_neg hs]
    cases henable : env.enableOK (GetAddress env o) (GetAddress env s) <;>
      simp [Hook.Create, Hook.Enable, hcreate, henable]

/-- C2 witness: the concrete failing Create leaves the default handle in the
map while Hook reports failure. -/
theorem c2_witness :
    baseSt.target_size ≤ (GetTargetVirtualAddress failEnv testMem baseSt oRefMiss).fst.index ∧
    GetAddress failEnv oRefMiss ≠ 0 ∧
    alistLookup baseSt.hooks (GetAddress failEnv oRefMiss) = none ∧
    GetAddress failEnv sRef ≠ 0 ∧
    failEnv.createOK (GetAddress failEnv oRefMiss) (GetAddress failEnv sRef) = false ∧
    HookInternal failEnv testMem baseSt oRefMiss sRef =
      (false, testMem,
        { baseSt with
            hooks := alistInsert baseSt.hooks (GetAddress failEnv oRefMiss) ({} : Hook) }) :=
  ⟨by decide, by decide, by decide, by decide, by decide,
   (c2_nonslot_hook_records_entry failEnv testMem baseSt oRefMiss sRef
     (by decide) (by decide) (by decide) (by decide)).1 (by decide)⟩

/-- C1 counterexample: with an uninitialized registry (target_size 0), a
registered non-slot hook with a non-null trampoline is not called through:
Call returns the default value, refuting the unconditional precedence of the
claim as stated. -/
theorem c1_counterexample :
    (CallInternal testEnv testMem uninitHookSt oRef).fst = CallAction.retDefault ∧
    alistLookup uninitHookSt.hooks (GetAddress testEnv oRef) = some trampHook ∧
    Hook.GetTrampoline trampHook ≠ 0 := by decide

/-- C1 (amended): once the registry is initialized with at least one captured
slot, Call invokes the pre-hook implementation with the documented
precedence: the trampoline of a registered non-slot hook when it is non-null;
else the snapshot value of the resolved target slot (never the live slot);
else the non-null extracted raw address; else it returns the declared result
type's default value.  (The bound of target_size by SIZE_MAX is automatic for
any real table.) -/
theorem c1_call_precedence_initialized (env : Env) (mem : Mem) (st : Registry)
    (o : MethodRef)
    (hsz : 0 < st.target_size) (hsm : st.target_size ≤ SIZE_MAX) :
    (∀ h, alistLookup st.hooks (GetAddress env o) = some h →
      Hook.GetTrampoline h ≠ 0 →
      (CallInternal env mem st o).fst = CallAction.invoke (Hook.GetTrampoline h)) ∧
    ((∀ h, alistLookup st.hooks (GetAddress env o) = some h → Hook.GetTrampoline h = 0) →
      ((GetTargetVirtualAddress env mem st o).fst.index < st.target_size →
        (CallInternal env mem st o).fst =
          CallAction.invoke
            (st.original_vtable.getD (GetTargetVirtualAddress env mem st o).fst.index 0)) ∧
      (st.target_size ≤ (GetTargetVirtualAddress env mem st o).fst.index →
        GetAddress env o ≠ 0 →
        (CallInternal env mem st o).fst = CallAction.invoke (GetAddress env o)) ∧
      (st.target_size ≤ (GetTargetVirtualAddress env mem st o).fst.index →
        GetAddress env o = 0 →
        (CallInternal env mem st o).fst = CallAction.retDefault)) := by
  constructor
  · intro h hl ht
    simp only [CallInternal]
    rw [hlm_tramp st (GetAddress env o) h hl ht]
    simp [Nat.not_le.mpr hsz]
  · intro h0
    have hidx0 : (hookLookupMember st (GetAddress env o)).index = SIZE_MAX :=
      hlm_sentinel_index st (GetAddress env o) h0
    refine ⟨?_, ?_, ?_⟩
    · intro hres
      simp only [CallInternal]
      rw [hidx0, if_pos hsm, if_pos hres]
      simp [Nat.not_le.mpr hres]
    · intro hres haddr
      simp only [CallInternal]
      rw [hidx0, if_pos hsm,
        if_neg (by omega : ¬ (GetTargetVirtualAddress env mem st o).fst.index < st.target_size)]
      rw [if_pos hres]
      simp [haddr, Nat.not_le.mpr hsz]
    · intro hres haddr
      simp only [CallInternal]
      rw [hidx0, if_pos hsm,
        if_neg (by omega : ¬ (GetTargetVirtualAddress env mem st o).fst.index < st.target_size)]
      rw [if_pos hres]
      simp [haddr, hres]

/-- C1 witness: on an initialized registry carrying a non-slot hook with the
non-null trampoline 777, Call invokes the trampoline. -/
theorem c1_witness :
    0 < trampSt.target_size ∧ trampSt.target_size ≤ SIZE_MAX ∧
    alistLookup trampSt.hooks (GetAddress testEnv oRef) = some trampHook ∧
    Hook.GetTrampoline trampHook ≠ 0 ∧
    (CallInternal testEnv testMem trampSt oRef).fst =
      CallAction.invoke (Hook.GetTrampoline trampHook) :=
  ⟨by decide, by decide, by decide, by decide,
   (c1_call_precedence_initialized testEnv testMem trampSt oRef (by decide) (by decide)).1
     trampHook (by decide) (by decide)⟩

/-- C10: a first Initialize that fails the table-location or executability
probe returns false with the registry exactly as it was, and a later
Initialize against a valid, executable target still succeeds. -/
theorem c10_initialize_failure_resets (env : Env) (mem : Mem) (st : Registry)
    (instance_ substitute : Nat)
    (h0 : st.target_vtable = 0)
    (hbad : GetVirtualTable mem instance_ = 0 ∨
      env.isExec (mem (GetVirtualTable mem instance_)) = false) :
    Initialize env mem st instance_ substitute = (false, st) ∧
    (∀ mem2 instance2 substitute2,
      GetVirtualTable mem2 instance2 ≠ 0 →
      env.isExec (mem2 (GetVirtualTable mem2 instance2)) = true →
      (Initialize env mem2 st instance2 substitute2).fst = true) := by
  constructor
  · unfold Initialize
    simp only [h0, ne_eq, not_true_eq_false, if_false]
    simp only [hbad, if_true]
    rw [registry_update_tv_self st h0]
  · intro mem2 instance2 substitute2 hv he
    unfold Initialize
    simp [h0, hv, he]

/-- C10 witness: on the concrete memory, initializing from the null instance
at address 70 fails and leaves the empty registry untouched, after which
initializing from the valid instance at 50 succeeds. -/
theorem c10_witness :
    ({} : Registry).target_vtable = 0 ∧
    (GetVirtualTable testMem 70 = 0 ∨
      testEnv.isExec (testMem (GetVirtualTable testMem 70)) = false) ∧
    (Initialize testEnv testMem {} 70 60 = (false, {}) ∧
      (∀ mem2 instance2 substitute2,
        GetVirtualTable mem2 instance2 ≠ 0 →
        testEnv.isExec (mem2 (GetVirtualTable mem2 instance2)) = true →
        (Initialize testEnv mem2 {} instance2 substitute2).fst = true)) :=
  ⟨by decide, by decide,
   c10_initialize_failure_resets testEnv testMem {} 70 60 (by decide) (by decide)⟩

end Detouring
